import Mathlib

/-!
Shallow embedding of the OpString class (src, version 0.3.1).

JS strings are modelled as lists of UTF-16 code units (`List Nat`); JS
objects used as code-keyed stores are modelled as association lists
(`Store`) whose update preserves insertion order, matching JS property
assignment. JS values that can live in the value registry are modelled by
`JSVal`; `truthy` mirrors JS truthiness, which drives the `if (value)`
test in `setSequence`. Callbacks are opaque `Nat` handles (only functions
can ever be stored in the operation registry, and functions are truthy, so
the `if (operation)` presence test is `Option.isSome`). Executing a
sequence is observed as the list of (operation code, argument list)
invocations, in order. Logging is an external sink and is not modelled;
what is modelled is which error kind a validation raises and whether the
guarded action proceeds.
-/

namespace OpStr

/-- JS runtime values that appear in the value registry and in callback
argument lists. Numbers are modelled as integers (non-integer floats
never matter for the registries' observable behavior in the claims). -/
inductive JSVal where
  | vUndefined
  | vNull
  | vBool (b : Bool)
  | vNum (n : Int)
  | vStr (s : List Nat)
  | vFun (k : Nat)
deriving DecidableEq, Repr

/-- JS truthiness of a value. -/
def truthy : JSVal → Bool
  | .vUndefined => false
  | .vNull => false
  | .vBool b => b
  | .vNum n => n != 0
  | .vStr s => !s.isEmpty
  | .vFun _ => true

/-- Truthiness of a property read: a missing property reads as
`undefined`, which is falsy. -/
def truthyOpt : Option JSVal → Bool
  | none => false
  | some v => truthy v

/-- A JS object used as a store keyed by numeric codes. -/
abbrev Store (α : Type) := List (Nat × α)

/-- Property read `obj[k]`: `none` models `undefined`. -/
def storeGet : Store α → Nat → Option α
  | [], _ => none
  | p :: m, k => if p.1 = k then some p.2 else storeGet m k

/-- Property assignment `obj[k] = v`: overwrites in place, otherwise
appends, preserving JS insertion order. -/
def storeSet : Store α → Nat → α → Store α
  | [], k, v => [(k, v)]
  | p :: m, k, v => if p.1 = k then (k, v) :: m else p :: storeSet m k v

/-- One entry of the `#sequenceData` array: id, operation char code and
the resolved argument char codes. (After successful validation the
`values` computed by `#computeCharCodes` never contain `null`, so the
codes are plain naturals.) -/
structure OpRecord where
  id : Nat
  operation : Nat
  values : List Nat
deriving DecidableEq, Repr

/-- The private instance state of an OpString object. -/
structure OpStringState where
  sequence : List Nat
  sequenceData : List OpRecord
  operations : Store Nat
  values : Store JSVal
  labels : List (List Nat × Nat)
  maxSequenceLength : Option Nat
  ignoreWarnings : Bool
  strictMode : Bool
  nextOperationId : Nat
deriving DecidableEq, Repr

/-- State of a freshly constructed instance before any config is applied
(field initializers of the class). -/
def initState : OpStringState :=
  { sequence := []
    sequenceData := []
    operations := []
    values := []
    labels := []
    maxSequenceLength := none
    ignoreWarnings := false
    strictMode := false
    nextOperationId := 1 }

/-- A user-supplied symbol: a JS string (list of code units) or a JS
number. Only non-negative integer numbers are modelled: other JS values
(negative or non-integer numbers, booleans, objects, ...) classify as
invalid, are rejected by every validating entry point, and are not
representable in the `Nat`-coded records, so they are outside the
model's scope. -/
inductive Symb where
  | str (s : List Nat)
  | num (n : Nat)
deriving DecidableEq, Repr

def isDigitCode (c : Nat) : Bool := 48 ≤ c && c ≤ 57

/-- Whether a string matches the regex used by `#getSymbolType`:
one or more decimal digit characters. -/
def isDigits (s : List Nat) : Bool := !s.isEmpty && s.all isDigitCode

/-- Numeric value denoted by a digit string (JS string-to-number
coercion on an all-digits string). -/
def denoteDigits (s : List Nat) : Nat := s.foldl (fun a c => a * 10 + (c - 48)) 0

def symbolTypeInvalid : Nat := 0
def symbolTypeString : Nat := 1
def symbolTypeInteger : Nat := 2

/-- `#getSymbolType`: the regex test coerces the value to a string, so a
non-negative integer number and an all-digits string both classify as
Integer; any other string classifies as String. (The Invalid result
arises only for JS values outside the model's symbol universe.) -/
def getSymbolType : Symb → Nat
  | .num _ => symbolTypeInteger
  | .str s => if isDigits s then symbolTypeInteger else symbolTypeString

/-- Numeric coercion of an Integer-typed symbol, as applied by JS in the
range check and when the symbol is passed to `String.fromCharCode` or
used as an object key. For number symbols and canonical digit strings
(in particular every single digit character) this matches the JS
property key exactly; a non-canonical digit string such as a
zero-padded one is a distinct JS property from its number and is
collapsed to that number here — outside the scope of the judged
theorems, which use single digit characters only. -/
def symbNum : Symb → Nat
  | .num n => n
  | .str s => denoteDigits s

/-- `charCodeAt(0)` of a String-typed symbol. -/
def charCodeAtZero : Symb → Nat
  | .str s => s.headD 0
  | .num n => n

def minCharCode : Nat := 0
def maxCharCode : Nat := 65535

/-- The error classes thrown by `#validateArguments`. -/
inductive ErrKind where
  | typeError
  | syntaxError
  | rangeError
  | referenceError
deriving DecidableEq, Repr

/-- Symbol checks shared by append/insert/prepend/registerOperation/
registerValue/registerLabel: invalid type, multi-character string,
out-of-range integer. -/
def validateSymbol (s : Symb) : Except ErrKind Unit :=
  if getSymbolType s = symbolTypeInvalid then .error .typeError
  else if getSymbolType s = symbolTypeString then
    match s with
    | .str l => if l.length ≠ 1 then .error .syntaxError else .ok ()
    | .num _ => .ok ()
  else if symbNum s > maxCharCode then .error .rangeError
  else .ok ()

/-- Element-wise symbol checks of the `values` parameter. -/
def validateSymbolList : List Symb → Except ErrKind Unit
  | [] => .ok ()
  | s :: rest => do
    validateSymbol s
    validateSymbolList rest

/-- The `values` parameter of append/insert/prepend: if defined it must
be a non-empty array of valid symbols. -/
def validateValuesParam : Option (List Symb) → Except ErrKind Unit
  | none => .ok ()
  | some l =>
    if l.isEmpty then .error .typeError
    else validateSymbolList l

/-- Validation performed for append/insert/prepend. -/
def validateOpAction (op : Symb) (vals : Option (List Symb)) : Except ErrKind Unit := do
  validateSymbol op
  validateValuesParam vals

/-- `#computeCharCode`: a String-typed symbol resolves to its first code
unit; an Integer-typed symbol is returned raw and then coerced to its
number wherever used. -/
def computeCharCode (s : Symb) : Nat :=
  if getSymbolType s = symbolTypeString then charCodeAtZero s else symbNum s

/-- `#computeCharCodes` on a validated `values` parameter (validation has
already excluded invalid symbols, so the `null` branch is unreachable). -/
def computeCharCodes : Option (List Symb) → List Nat
  | some l => l.map computeCharCode
  | none => []

/-- `String.fromCharCode` applies ToUint16 to its argument: the code is
reduced modulo 2^16. -/
def toUint16 (c : Nat) : Nat := c % 65536

/-- `#computeSequence`: serialize the sequence data array back into the
character sequence. Every code goes through `String.fromCharCode`,
which wraps it modulo 2^16 — relevant because the unvalidated `insert`
can put out-of-range codes into records. -/
def computeSequence (sd : List OpRecord) : List Nat :=
  sd.flatMap (fun r => toUint16 r.operation :: r.values.map toUint16)

/-- `append`: validate, push a record with the next id, recompute the
string. Returns the updated state and the id, or `none` for the `false`
failure return. -/
def append (st : OpStringState) (op : Symb) (vals : Option (List Symb)) :
    OpStringState × Option Nat :=
  match validateOpAction op vals with
  | .error _ => (st, none)
  | .ok _ =>
    let r : OpRecord := ⟨st.nextOperationId, computeCharCode op, computeCharCodes vals⟩
    let sd := st.sequenceData ++ [r]
    ({ st with
        sequenceData := sd
        sequence := computeSequence sd
        nextOperationId := st.nextOperationId + 1 },
      some st.nextOperationId)

/-- `splice(i, 0, r)` on an array: inserts at `i`, appending past the end
when `i` exceeds the length. -/
def spliceInsert (sd : List OpRecord) (i : Nat) (r : OpRecord) : List OpRecord :=
  sd.take i ++ r :: sd.drop i

/-- `insert`: the source dispatches its validation as
`#validateArguments('add', arguments)`, and the validator's switch has
no `'add'` case (its `'insert'` case is dead code), so `insert` never
validates and always mutates: it splices the record at the given index,
appending past the end per `splice` semantics, and returns the new id.
For string and number symbols `#computeCharCode`/`#computeCharCodes`
cannot throw, so the catch branch is unreachable within the model's
input universe (negative or fractional indexes and non-array `values`
arguments are outside it). Out-of-range codes and multi-character or
empty-`values` arguments that `append`/`prepend` would reject are
therefore admitted here. -/
def insert (st : OpStringState) (idx : Nat) (op : Symb) (vals : Option (List Symb)) :
    OpStringState × Option Nat :=
  let r : OpRecord := ⟨st.nextOperationId, computeCharCode op, computeCharCodes vals⟩
  let sd := spliceInsert st.sequenceData idx r
  ({ st with
      sequenceData := sd
      sequence := computeSequence sd
      nextOperationId := st.nextOperationId + 1 },
    some st.nextOperationId)

/-- `prepend`: like append but unshifting at position 0. -/
def prepend (st : OpStringState) (op : Symb) (vals : Option (List Symb)) :
    OpStringState × Option Nat :=
  match validateOpAction op vals with
  | .error _ => (st, none)
  | .ok _ =>
    let r : OpRecord := ⟨st.nextOperationId, computeCharCode op, computeCharCodes vals⟩
    let sd := r :: st.sequenceData
    ({ st with
        sequenceData := sd
        sequence := computeSequence sd
        nextOperationId := st.nextOperationId + 1 },
      some st.nextOperationId)

/-- `remove`: validate the id, erase the first record with that id and
recompute the string; `false` when the id is invalid or not found. -/
def remove (st : OpStringState) (id : Nat) : OpStringState × Bool :=
  if 0 < id then
    if st.sequenceData.any (fun r => r.id = id) then
      let sd := st.sequenceData.eraseP (fun r => r.id = id)
      ({ st with sequenceData := sd, sequence := computeSequence sd }, true)
    else (st, false)
  else (st, false)

/-- Registration of a value under an already-computed char code, as done
by the auto-registration call `registerValue(valueCharCode, null)` inside
`setSequence`: a numeric code classifies as Integer and passes validation
exactly when it is within the char-code range. -/
def autoRegister (vals : Store JSVal) (c : Nat) : Store JSVal :=
  if c ≤ maxCharCode then storeSet vals c .vNull else vals

/-- Inner argument scan of `setSequence`, starting right after an
operation character: a char with a truthy registered value is consumed;
otherwise a registered operation stops the scan; otherwise the char is
auto-registered as a `null` value and consumed. Returns the collected
argument codes and the (possibly mutated) value registry. -/
def scanArgs (ops : Store Nat) : Store JSVal → List Nat → List Nat × Store JSVal
  | vals, [] => ([], vals)
  | vals, c :: rest =>
    if truthyOpt (storeGet vals c) then
      let r := scanArgs ops vals rest
      (c :: r.1, r.2)
    else if (storeGet ops c).isSome then ([], vals)
    else
      let r := scanArgs ops (autoRegister vals c) rest
      (c :: r.1, r.2)

/-- Outer parse loop of `setSequence`. The loop index advances one
character at a time, so characters consumed as arguments are revisited
(and start their own record when they are registered operations). Returns
the new sequence data, the value registry and the next operation id. -/
def setSeqLoop (ops : Store Nat) : Store JSVal → Nat → List Nat → List OpRecord × Store JSVal × Nat
  | vals, nid, [] => ([], vals, nid)
  | vals, nid, c :: rest =>
    if (storeGet ops c).isSome then
      let sr := scanArgs ops vals rest
      let lr := setSeqLoop ops sr.2 (nid + 1) rest
      (⟨nid, c, sr.1⟩ :: lr.1, lr.2.1, lr.2.2)
    else setSeqLoop ops vals nid rest

/-- `#isSequenceLengthWithinLimit`. -/
def isSequenceLengthWithinLimit (st : OpStringState) (s : List Nat) : Bool :=
  match st.maxSequenceLength with
  | some m => decide (s.length ≤ m)
  | none => true

/-- `setSequence`: the length validation may raise a RangeError, which is
caught; the parse then proceeds unless an error was caught in strict
mode. (The model input is always a string, so the TypeError branch of the
validation cannot fire.) -/
def setSequence (st : OpStringState) (s : List Nat) : OpStringState :=
  let caughtError := !isSequenceLengthWithinLimit st s
  if caughtError && st.strictMode then st
  else
    let pr := setSeqLoop st.operations st.values st.nextOperationId s
    { st with
        sequence := s
        sequenceData := pr.1
        values := pr.2.1
        nextOperationId := pr.2.2 }

/-- Validation performed for `registerValue`: the symbol checks, then a
TypeError when the value is `undefined`. -/
def validateRegisterValue (sym : Symb) (v : JSVal) : Except ErrKind Unit := do
  validateSymbol sym
  if v = JSVal.vUndefined then Except.error ErrKind.typeError
  else Except.ok ()

/-- `registerValue`: validate the symbol and that the value is not
`undefined`, then store under the resolved code. For an Integer-typed
symbol the store key is its numeric value, which is the JS property key
for number symbols and canonical digit strings (every single digit
character in particular); see the note on `symbNum` for non-canonical
digit strings. -/
def registerValue (st : OpStringState) (sym : Symb) (v : JSVal) : OpStringState :=
  match validateRegisterValue sym v with
  | .error _ => st
  | .ok _ =>
    if getSymbolType sym = symbolTypeString then
      { st with values := storeSet st.values (charCodeAtZero sym) v }
    else if getSymbolType sym = symbolTypeInteger then
      { st with values := storeSet st.values (symbNum sym) v }
    else st

/-- `registerOperation`: the callback is an opaque handle; the
`typeof callback === 'function'` check always passes for it. -/
def registerOperation (st : OpStringState) (sym : Symb) (cb : Nat) : OpStringState :=
  match validateSymbol sym with
  | .error _ => st
  | .ok _ =>
    if getSymbolType sym = symbolTypeString then
      { st with operations := storeSet st.operations (charCodeAtZero sym) cb }
    else if getSymbolType sym = symbolTypeInteger then
      { st with operations := storeSet st.operations (symbNum sym) cb }
    else st

/-- Label store assignment (labels are keyed by the label string). -/
def labelSet : List (List Nat × Nat) → List Nat → Nat → List (List Nat × Nat)
  | [], l, c => [(l, c)]
  | p :: m, l, c => if p.1 = l then (l, c) :: m else p :: labelSet m l c

/-- `registerLabel`: the label must be a string (guaranteed by the model
type), the symbol must validate; store the resolved code. -/
def registerLabel (st : OpStringState) (label : List Nat) (sym : Symb) : OpStringState :=
  match validateSymbol sym with
  | .error _ => st
  | .ok _ =>
    if getSymbolType sym = symbolTypeString then
      { st with labels := labelSet st.labels label (charCodeAtZero sym) }
    else if getSymbolType sym = symbolTypeInteger then
      { st with labels := labelSet st.labels label (symbNum sym) }
    else st

/-- `#registerOperationsInternal`: entry-by-entry registration; each
entry's own validation failure is caught inside `registerOperation`. -/
def registerOperationsList (st : OpStringState) (l : List (Symb × Nat)) : OpStringState :=
  l.foldl (fun s p => registerOperation s p.1 p.2) st

/-- `#registerValuesInternal`. -/
def registerValuesList (st : OpStringState) (l : List (Symb × JSVal)) : OpStringState :=
  l.foldl (fun s p => registerValue s p.1 p.2) st

/-- `#registerLabelsInternal`. -/
def registerLabelsList (st : OpStringState) (l : List (List Nat × Symb)) : OpStringState :=
  l.foldl (fun s p => registerLabel s p.1 p.2) st

/-- Argument resolution loop shared by both executor paths: a present
registry entry (`value !== undefined`) is pushed as-is; otherwise a
registered operation stops the loop; otherwise `undefined` is pushed. -/
def execScanArgs (ops : Store Nat) (vals : Store JSVal) : List Nat → List JSVal
  | [] => []
  | c :: rest =>
    match storeGet vals c with
    | some v => v :: execScanArgs ops vals rest
    | none =>
      if (storeGet ops c).isSome then []
      else JSVal.vUndefined :: execScanArgs ops vals rest

/-- `#executeSequence`: walk the string; each character with a registered
callback yields one invocation whose arguments are resolved from the
following characters. -/
def execLoop (ops : Store Nat) (vals : Store JSVal) : List Nat → List (Nat × List JSVal)
  | [] => []
  | c :: rest =>
    if (storeGet ops c).isSome then
      (c, execScanArgs ops vals rest) :: execLoop ops vals rest
    else execLoop ops vals rest

/-- `#executeSequenceFromData`: walk the sequence data; a record whose
operation has no registered callback is skipped entirely. -/
def execFromData (ops : Store Nat) (vals : Store JSVal) : List OpRecord → List (Nat × List JSVal)
  | [] => []
  | r :: rest =>
    if (storeGet ops r.operation).isSome then
      (r.operation, execScanArgs ops vals r.values) :: execFromData ops vals rest
    else execFromData ops vals rest

/-- Validation of a sequence about to be executed: empty sequences raise
a SyntaxError, over-limit sequences a RangeError. -/
def validateExecuteSeq (st : OpStringState) (s : List Nat) : Except ErrKind Unit :=
  if s.isEmpty then .error .syntaxError
  else if !isSequenceLengthWithinLimit st s then .error .rangeError
  else .ok ()

/-- The provided-sequence path of `execute`: validation errors are
caught, and the interpretation proceeds unless an error was caught in
strict mode. Neither the validation nor `#executeSequence` writes any
instance field on this path, so the state is returned unchanged. -/
def executeProvided (st : OpStringState) (s : List Nat) : OpStringState × List (Nat × List JSVal) :=
  (st,
    match validateExecuteSeq st s with
    | .error _ => if st.strictMode then [] else execLoop st.operations st.values s
    | .ok _ => execLoop st.operations st.values s)

/-- `execute`: with no argument, validate and interpret the instance
sequence from the sequence data; with an argument, validate and interpret
the provided string. Returns the invocation list. -/
def execute (st : OpStringState) (seqOpt : Option (List Nat)) : List (Nat × List JSVal) :=
  match seqOpt with
  | some s => (executeProvided st s).2
  | none =>
    match validateExecuteSeq st st.sequence with
    | .error _ =>
      if st.strictMode then [] else execFromData st.operations st.values st.sequenceData
    | .ok _ => execFromData st.operations st.values st.sequenceData

/-- One config field: absent, present and well-typed, or present with a
value of the wrong type. -/
inductive CfgField (α : Type) where
  | absent
  | good (a : α)
  | bad
deriving DecidableEq

/-- The constructor's config object. `unknownKey` records whether the
object carries a property outside the valid config keys. -/
structure Config where
  sequence : CfgField (List Nat)
  operations : CfgField (List (Symb × Nat))
  values : CfgField (List (Symb × JSVal))
  labels : CfgField (List (List Nat × Symb))
  maxSequenceLength : CfgField Int
  ignoreWarnings : CfgField Bool
  strictMode : CfgField Bool
  unknownKey : Bool
deriving DecidableEq

/-- Whether the config object has no own properties (in which case the
non-empty-plain-object check fails). -/
def Config.isEmptyObj (c : Config) : Bool :=
  c.sequence = CfgField.absent && c.operations = CfgField.absent
    && c.values = CfgField.absent && c.labels = CfgField.absent
    && c.maxSequenceLength = CfgField.absent && c.ignoreWarnings = CfgField.absent
    && c.strictMode = CfgField.absent

/-- Whether a present store-typed field passes `#isValidStoreObject`
(present, plain object, non-empty). -/
def cfgStoreOk {α : Type} : CfgField (List α) → Bool
  | .absent => true
  | .good l => !l.isEmpty
  | .bad => false

/-- `#validateArguments('constructor', ...)`: the outer valid-keys /
non-empty check, then the per-field type checks, in source order,
stopping at the first failure. -/
def validateConstructorCfg (c : Config) : Except ErrKind Unit :=
  if c.unknownKey || c.isEmptyObj then .error .typeError
  else if c.sequence = CfgField.bad then .error .typeError
  else if !cfgStoreOk c.operations then .error .typeError
  else if !cfgStoreOk c.values then .error .typeError
  else if !cfgStoreOk c.labels then .error .typeError
  else
    match c.maxSequenceLength with
    | .bad => .error .typeError
    | .good n => if n ≤ 0 then .error .typeError else validateCfgBools c
    | .absent => validateCfgBools c
where
  validateCfgBools (c : Config) : Except ErrKind Unit :=
    if c.ignoreWarnings = CfgField.bad then .error .typeError
    else if c.strictMode = CfgField.bad then .error .typeError
    else .ok ()

/-- The constructor body after validation has passed: apply the config
fields in source order (none of these calls can propagate an exception;
each catches its own validation failures). -/
def applyConfig (st : OpStringState) (c : Config) : OpStringState :=
  let st := match c.maxSequenceLength with
    | .good n => { st with maxSequenceLength := some n.toNat }
    | _ => st
  let st := match c.ignoreWarnings with
    | .good b => { st with ignoreWarnings := b }
    | _ => st
  let st := match c.strictMode with
    | .good b => { st with strictMode := b }
    | _ => st
  let st := match c.operations with
    | .good l => registerOperationsList st l
    | _ => st
  let st := match c.values with
    | .good l => registerValuesList st l
    | _ => st
  let st := match c.labels with
    | .good l => registerLabelsList st l
    | _ => st
  match c.sequence with
  | .good s => setSequence st s
  | _ => st

/-- The constructor: everything runs inside a try/catch, so a validation
failure is logged and leaves the freshly initialized instance with all
defaults; `new OpString()` performs no configuration at all. -/
def construct (cfg : Option Config) : OpStringState :=
  match cfg with
  | none => initState
  | some c =>
    match validateConstructorCfg c with
    | .error _ => initState
    | .ok _ => applyConfig initState c

/-- One sequence-model mutation, for stating reachability via the
builder interface. -/
inductive BuildStep where
  | appendStep (op : Symb) (vals : Option (List Symb))
  | insertStep (idx : Nat) (op : Symb) (vals : Option (List Symb))
  | prependStep (op : Symb) (vals : Option (List Symb))
  | removeStep (id : Nat)
deriving DecidableEq

/-- Apply one builder call, discarding the returned id/flag. -/
def applyBuild (st : OpStringState) : BuildStep → OpStringState
  | .appendStep op vals => (append st op vals).1
  | .insertStep idx op vals => (insert st idx op vals).1
  | .prependStep op vals => (prepend st op vals).1
  | .removeStep id => (remove st id).1

/-- Apply a list of builder calls in order. -/
def applyTrace (st : OpStringState) (steps : List BuildStep) : OpStringState :=
  steps.foldl applyBuild st

/-- The observable content of the sequence model named by the round-trip
law: operation codes and argument codes, in order (ids dropped). -/
def modelCodes (sd : List OpRecord) : List (Nat × List Nat) :=
  sd.map (fun r => (r.operation, r.values))

/-- The value-registry updates performed by the argument scan while it
consumes a run of characters none of which is a registered operation. -/
def updFold (vals : Store JSVal) (cs : List Nat) : Store JSVal :=
  cs.foldl (fun v c => if truthyOpt (storeGet v c) then v else autoRegister v c) vals

/-- A record whose operation is a registered operation and whose argument
codes are all unregistered as operations. -/
def RecOk (ops : Store Nat) (r : OpRecord) : Prop :=
  (storeGet ops r.operation).isSome = true ∧ ∀ c ∈ r.values, storeGet ops c = none

/-- The projection invariant: the stored sequence string is the
serialization of the sequence data. -/
def SeqInv (st : OpStringState) : Prop :=
  st.sequence = computeSequence st.sequenceData

theorem storeGet_storeSet (m : Store α) (k k' : Nat) (v : α) :
    storeGet (storeSet m k v) k' = if k' = k then some v else storeGet m k' := by
  induction m with
  | nil =>
    simp only [storeSet, storeGet]
    rcases eq_or_ne k' k with h | h
    · rw [if_pos h.symm, if_pos h]
    · rw [if_neg (Ne.symm h), if_neg h]
  | cons p m ih =>
    simp only [storeSet]
    by_cases hp : p.1 = k
    · rw [if_pos hp]
      simp only [storeGet]
      rcases eq_or_ne k' k with h | h
      · rw [if_pos h.symm, if_pos h]
      · rw [if_neg (Ne.symm h), if_neg h, if_neg (fun q => h (hp.symm.trans q).symm)]
    · rw [if_neg hp]
      simp only [storeGet]
      rcases eq_or_ne p.1 k' with hq | hq
      · rw [if_pos hq, if_pos hq, if_neg (fun he => hp (hq.trans he))]
      · rw [if_neg hq, if_neg hq, ih]

theorem storeGet_autoRegister_ne (vals : Store JSVal) (c k : Nat) (h : k ≠ c) :
    storeGet (autoRegister vals c) k = storeGet vals k := by
  unfold autoRegister
  split
  · rw [storeGet_storeSet]
    simp [h]
  · rfl

theorem storeGet_updFold_ne (ops : Store Nat) (cs : List Nat) :
    ∀ (vals : Store JSVal) (k : Nat), (∀ c ∈ cs, storeGet ops c = none) →
      (storeGet ops k).isSome = true →
      storeGet (updFold vals cs) k = storeGet vals k := by
  induction cs with
  | nil => intro vals k _ _; rfl
  | cons c cs ih =>
    intro vals k hcs hk
    have hc : storeGet ops c = none := hcs c (by simp)
    have hkc : k ≠ c := by
      intro he
      rw [he, hc] at hk
      simp at hk
    have hstep : updFold vals (c :: cs)
        = updFold (if truthyOpt (storeGet vals c) then vals else autoRegister vals c) cs := by
      simp [updFold, List.foldl]
    rw [hstep, ih _ k (fun d hd => hcs d (by simp [hd])) hk]
    split
    · rfl
    · exact storeGet_autoRegister_ne vals c k hkc

theorem scanArgs_cons (ops : Store Nat) (vals : Store JSVal) (c : Nat) (rest : List Nat) :
    scanArgs ops vals (c :: rest) =
      if truthyOpt (storeGet vals c) = true then
        (c :: (scanArgs ops vals rest).1, (scanArgs ops vals rest).2)
      else if (storeGet ops c).isSome = true then ([], vals)
      else
        (c :: (scanArgs ops (autoRegister vals c) rest).1,
          (scanArgs ops (autoRegister vals c) rest).2) := rfl

theorem setSeqLoop_cons (ops : Store Nat) (vals : Store JSVal) (nid c : Nat) (rest : List Nat) :
    setSeqLoop ops vals nid (c :: rest) =
      if (storeGet ops c).isSome = true then
        (⟨nid, c, (scanArgs ops vals rest).1⟩ ::
            (setSeqLoop ops (scanArgs ops vals rest).2 (nid + 1) rest).1,
          (setSeqLoop ops (scanArgs ops vals rest).2 (nid + 1) rest).2)
      else setSeqLoop ops vals nid rest := rfl

theorem scanArgs_front (ops : Store Nat) (cs : List Nat) :
    ∀ (vals : Store JSVal) (tail : List Nat), (∀ c ∈ cs, storeGet ops c = none) →
      scanArgs ops vals (cs ++ tail) =
        (cs ++ (scanArgs ops (updFold vals cs) tail).1,
          (scanArgs ops (updFold vals cs) tail).2) := by
  induction cs with
  | nil => intro vals tail _; simp [updFold]
  | cons c cs ih =>
    intro vals tail hall
    have hc : storeGet ops c = none := hall c (by simp)
    have hrest : ∀ d ∈ cs, storeGet ops d = none := fun d hd => hall d (by simp [hd])
    have hops : ¬ (storeGet ops c).isSome = true := by rw [hc]; simp
    have hstep : updFold vals (c :: cs)
        = updFold (if truthyOpt (storeGet vals c) = true then vals else autoRegister vals c)
            cs := by
      simp [updFold, List.foldl]
    rw [List.cons_append, scanArgs_cons]
    by_cases ht : truthyOpt (storeGet vals c) = true
    · rw [if_pos ht, hstep, if_pos ht, ih vals tail hrest]
      simp
    · rw [if_neg ht, if_neg hops, hstep, if_neg ht, ih (autoRegister vals c) tail hrest]
      simp

theorem scanArgs_stop (ops : Store Nat) (vals : Store JSVal) (c : Nat) (rest : List Nat)
    (hop : (storeGet ops c).isSome = true) (hfalse : truthyOpt (storeGet vals c) = false) :
    scanArgs ops vals (c :: rest) = ([], vals) := by
  rw [scanArgs_cons, if_neg (by rw [hfalse]; simp), if_pos hop]

theorem setSeqLoop_skip (ops : Store Nat) (cs : List Nat) :
    ∀ (vals : Store JSVal) (nid : Nat) (tail : List Nat),
      (∀ c ∈ cs, storeGet ops c = none) →
      setSeqLoop ops vals nid (cs ++ tail) = setSeqLoop ops vals nid tail := by
  induction cs with
  | nil => intro vals nid tail _; rfl
  | cons c cs ih =>
    intro vals nid tail hall
    have hc : storeGet ops c = none := hall c (by simp)
    have hops : ¬ (storeGet ops c).isSome = true := by rw [hc]; simp
    rw [List.cons_append, setSeqLoop_cons, if_neg hops]
    exact ih vals nid tail (fun d hd => hall d (by simp [hd]))

theorem toUint16_eq_self (c : Nat) (h : c ≤ maxCharCode) : toUint16 c = c := by
  have hlt : c < 65536 := by simp [maxCharCode] at h; omega
  simp [toUint16, Nat.mod_eq_of_lt hlt]

theorem map_toUint16_eq_self (l : List Nat) (h : ∀ c ∈ l, c ≤ maxCharCode) :
    l.map toUint16 = l := by
  induction l with
  | nil => rfl
  | cons c t ih =>
    rw [List.map_cons, toUint16_eq_self c (h c (by simp)),
      ih (fun d hd => h d (by simp [hd]))]

/-- Expansion of the serialization at a record whose codes are all
within the char-code range, so the ToUint16 wrap is the identity. -/
theorem computeSequence_cons_of_inRange (r : OpRecord) (rest : List OpRecord)
    (h1 : r.operation ≤ maxCharCode) (h2 : ∀ c ∈ r.values, c ≤ maxCharCode) :
    computeSequence (r :: rest) = r.operation :: (r.values ++ computeSequence rest) := by
  simp only [computeSequence, List.flatMap_cons, List.cons_append]
  rw [toUint16_eq_self r.operation h1, map_toUint16_eq_self r.values h2]

theorem decode_model (ops : Store Nat) :
    ∀ (sd : List OpRecord) (vals : Store JSVal) (nid : Nat),
      (∀ r ∈ sd, RecOk ops r) →
      (∀ r ∈ sd, truthyOpt (storeGet vals r.operation) = false) →
      (∀ r ∈ sd, r.operation ≤ maxCharCode ∧ ∀ c ∈ r.values, c ≤ maxCharCode) →
      modelCodes (setSeqLoop ops vals nid (computeSequence sd)).1 = modelCodes sd := by
  intro sd
  induction sd with
  | nil => intro vals nid _ _ _; rfl
  | cons r rest ih =>
    intro vals nid hok hfl hrg
    have hrok : RecOk ops r := hok r (by simp)
    have hargs : ∀ c ∈ r.values, storeGet ops c = none := hrok.2
    have hb := hrg r (by simp)
    have hcs : computeSequence (r :: rest)
        = r.operation :: (r.values ++ computeSequence rest) :=
      computeSequence_cons_of_inRange r rest hb.1 hb.2
    have hscan := scanArgs_front ops r.values vals (computeSequence rest) hargs
    have hstop : scanArgs ops (updFold vals r.values) (computeSequence rest)
        = ([], updFold vals r.values) := by
      cases rest with
      | nil => rfl
      | cons r' rest' =>
        have hr'ok : RecOk ops r' := hok r' (by simp)
        have hb' := hrg r' (by simp)
        rw [computeSequence_cons_of_inRange r' rest' hb'.1 hb'.2]
        refine scanArgs_stop ops _ _ _ hr'ok.1 ?_
        rw [storeGet_updFold_ne ops r.values vals r'.operation hargs hr'ok.1]
        exact hfl r' (by simp)
    rw [hcs, setSeqLoop_cons, if_pos hrok.1, hscan, hstop]
    simp only [List.append_nil]
    rw [setSeqLoop_skip ops r.values _ _ _ hargs]
    have hih := ih (updFold vals r.values) (nid + 1)
      (fun q hq => hok q (by simp [hq]))
      (fun q hq => by
        rw [storeGet_updFold_ne ops r.values vals q.operation hargs (hok q (by simp [hq])).1]
        exact hfl q (by simp [hq]))
      (fun q hq => hrg q (by simp [hq]))
    simp only [modelCodes, List.map_cons] at hih ⊢
    rw [hih]

theorem applyBuild_inv (st : OpStringState) (step : BuildStep) (h : SeqInv st) :
    SeqInv (applyBuild st step) := by
  cases step with
  | appendStep op vals =>
    cases hval : validateOpAction op vals with
    | error e => simpa [applyBuild, append, hval] using h
    | ok u => simp [applyBuild, append, hval, SeqInv]
  | insertStep idx op vals => simp [applyBuild, insert, SeqInv]
  | prependStep op vals =>
    cases hval : validateOpAction op vals with
    | error e => simpa [applyBuild, prepend, hval] using h
    | ok u => simp [applyBuild, prepend, hval, SeqInv]
  | removeStep id =>
    by_cases h1 : 0 < id
    · by_cases h2 : st.sequenceData.any (fun r => r.id = id) = true
      · simp [applyBuild, remove, h1, h2, SeqInv]
      · simpa [applyBuild, remove, h1, h2] using h
    · simpa [applyBuild, remove, h1] using h

theorem applyTrace_inv (steps : List BuildStep) :
    ∀ st : OpStringState, SeqInv st → SeqInv (applyTrace st steps) := by
  induction steps with
  | nil => intro st h; exact h
  | cons s rest ih => intro st h; exact ih (applyBuild st s) (applyBuild_inv st s h)

theorem applyBuild_frame (st : OpStringState) (step : BuildStep) :
    (applyBuild st step).operations = st.operations ∧
    (applyBuild st step).values = st.values ∧
    (applyBuild st step).maxSequenceLength = st.maxSequenceLength ∧
    (applyBuild st step).strictMode = st.strictMode := by
  cases step with
  | appendStep op vals =>
    cases hval : validateOpAction op vals <;> simp [applyBuild, append, hval]
  | insertStep idx op vals => simp [applyBuild, insert]
  | prependStep op vals =>
    cases hval : validateOpAction op vals <;> simp [applyBuild, prepend, hval]
  | removeStep id =>
    by_cases h1 : 0 < id
    · by_cases h2 : st.sequenceData.any (fun r => r.id = id) = true <;>
        simp [applyBuild, remove, h1, h2]
    · simp [applyBuild, remove, h1]

theorem applyTrace_frame (steps : List BuildStep) :
    ∀ st : OpStringState,
      (applyTrace st steps).operations = st.operations ∧
      (applyTrace st steps).values = st.values ∧
      (applyTrace st steps).maxSequenceLength = st.maxSequenceLength ∧
      (applyTrace st steps).strictMode = st.strictMode := by
  induction steps with
  | nil => intro st; exact ⟨rfl, rfl, rfl, rfl⟩
  | cons s rest ih =>
    intro st
    have h1 := applyBuild_frame st s
    have h2 := ih (applyBuild st s)
    exact ⟨h2.1.trans h1.1, h2.2.1.trans h1.2.1,
      h2.2.2.1.trans h1.2.2.1, h2.2.2.2.trans h1.2.2.2⟩

theorem exec_invoked_codes (ops : Store Nat) (vals : Store JSVal) (s : List Nat) :
    (execLoop ops vals s).map Prod.fst = s.filter (fun d => (storeGet ops d).isSome) := by
  induction s with
  | nil => rfl
  | cons c rest ih =>
    by_cases h : (storeGet ops c).isSome = true
    · simp [execLoop, h, ih, List.filter_cons]
    · simp only [Bool.not_eq_true] at h
      simp [execLoop, h, ih, List.filter_cons]

theorem execScanArgs_cons (ops : Store Nat) (vals : Store JSVal) (c : Nat) (rest : List Nat) :
    execScanArgs ops vals (c :: rest) =
      match storeGet vals c with
      | some v => v :: execScanArgs ops vals rest
      | none =>
        if (storeGet ops c).isSome = true then []
        else JSVal.vUndefined :: execScanArgs ops vals rest := rfl

/-- Claim C1 (corrected). Round-trip of the codec: for a Sequence Model
built purely via append/insert/prepend (and remove) starting from an
empty model, with argument codes drawn from already-registered value
codes, decoding (`setSequence`) the encoded string reproduces the same
operation codes and argument codes in order — provided, additionally,
that every operation code of the model is a registered operation whose
own value-registry entry is not truthy, that no argument code is a
registered operation, and that all codes of the model lie within the
character-code range 0–65535 (the unvalidated `insert` can create
records with larger codes, which do not survive the `fromCharCode`
serialization: it wraps them modulo 2^16). Without these extra
conditions the round trip fails (see the counterexample). Ids need not
match, so the comparison is on `modelCodes`. -/
theorem c1_round_trip (st0 : OpStringState) (steps : List BuildStep)
    (h0d : st0.sequenceData = []) (h0s : st0.sequence = [])
    (hml : st0.maxSequenceLength = none)
    (hops : ∀ r ∈ (applyTrace st0 steps).sequenceData,
      (storeGet (applyTrace st0 steps).operations r.operation).isSome = true ∧
      truthyOpt (storeGet (applyTrace st0 steps).values r.operation) = false)
    (hargs : ∀ r ∈ (applyTrace st0 steps).sequenceData, ∀ c ∈ r.values,
      storeGet (applyTrace st0 steps).operations c = none ∧
      (storeGet (applyTrace st0 steps).values c).isSome = true)
    (hrange : ∀ r ∈ (applyTrace st0 steps).sequenceData,
      r.operation ≤ maxCharCode ∧ ∀ c ∈ r.values, c ≤ maxCharCode) :
    modelCodes
        (setSequence (applyTrace st0 steps) (applyTrace st0 steps).sequence).sequenceData
      = modelCodes (applyTrace st0 steps).sequenceData := by
  set st := applyTrace st0 steps with hstdef
  have hfr := applyTrace_frame steps st0
  have hinv : SeqInv st :=
    applyTrace_inv steps st0 (by simp [SeqInv, h0d, h0s, computeSequence])
  have hml' : st.maxSequenceLength = none := hfr.2.2.1.trans hml
  have hlim : isSequenceLengthWithinLimit st st.sequence = true := by
    simp [isSequenceLengthWithinLimit, hml']
  have hbody : setSequence st st.sequence = { st with
      sequence := st.sequence
      sequenceData := (setSeqLoop st.operations st.values st.nextOperationId st.sequence).1
      values := (setSeqLoop st.operations st.values st.nextOperationId st.sequence).2.1
      nextOperationId :=
        (setSeqLoop st.operations st.values st.nextOperationId st.sequence).2.2 } := by
    simp [setSequence, hlim]
  rw [hbody]
  show modelCodes (setSeqLoop st.operations st.values st.nextOperationId st.sequence).1
    = modelCodes st.sequenceData
  rw [hinv]
  exact decode_model st.operations st.sequenceData st.values st.nextOperationId
    (fun r hr => ⟨(hops r hr).1, fun c hc => (hargs r hr c hc).1⟩)
    (fun r hr => (hops r hr).2)
    hrange

/-- Witness for C1: operations registered at code 65, value 30 at code
97, model built by `append(65, [97])`; decoding the encoded string gives
back the same codes. -/
theorem c1_round_trip_witness :
    modelCodes
        (setSequence
          (applyTrace { initState with operations := [(65, 0)], values := [(97, JSVal.vNum 30)] }
            [BuildStep.appendStep (Symb.num 65) (some [Symb.num 97])])
          (applyTrace { initState with operations := [(65, 0)], values := [(97, JSVal.vNum 30)] }
            [BuildStep.appendStep (Symb.num 65) (some [Symb.num 97])]).sequence).sequenceData
      = modelCodes
          (applyTrace { initState with operations := [(65, 0)], values := [(97, JSVal.vNum 30)] }
            [BuildStep.appendStep (Symb.num 65) (some [Symb.num 97])]).sequenceData :=
  c1_round_trip _ _ (by decide) (by decide) (by decide) (by decide) (by decide) (by decide)

/-- Counterexample for C1 as stated: code 97 is a registered value
(mapped to 30) and the model is built purely by `append(88, [97])`, yet
decoding the encoded string `[88, 97]` yields an empty model because 88
is not a registered operation — the claim's conditions do not require it
to be one. -/
theorem c1_round_trip_counterexample :
    storeGet
        (applyTrace { initState with values := [(97, JSVal.vNum 30)] }
          [BuildStep.appendStep (Symb.num 88) (some [Symb.num 97])]).values 97
      = some (JSVal.vNum 30) ∧
    modelCodes
        (applyTrace { initState with values := [(97, JSVal.vNum 30)] }
          [BuildStep.appendStep (Symb.num 88) (some [Symb.num 97])]).sequenceData
      = [(88, [97])] ∧
    modelCodes
        (setSequence
          (applyTrace { initState with values := [(97, JSVal.vNum 30)] }
            [BuildStep.appendStep (Symb.num 88) (some [Symb.num 97])])
          (applyTrace { initState with values := [(97, JSVal.vNum 30)] }
            [BuildStep.appendStep (Symb.num 88) (some [Symb.num 97])]).sequence).sequenceData
      ≠ modelCodes
          (applyTrace { initState with values := [(97, JSVal.vNum 30)] }
            [BuildStep.appendStep (Symb.num 88) (some [Symb.num 97])]).sequenceData := by
  refine ⟨by decide, by decide, by decide⟩

/-- Claim C2 (corrected). The stored sequence string equals the
serialization of the Sequence Model for every state reached from an
invariant-satisfying state (for instance a fresh instance) using only
the record mutators append/insert/prepend/remove. (The invariant is not
maintained by `setSequence`, which stores the raw input string even when
some characters form no record — see the counterexample.) -/
theorem c2_projection_invariant (st0 : OpStringState) (steps : List BuildStep)
    (h : st0.sequence = computeSequence st0.sequenceData) :
    (applyTrace st0 steps).sequence = computeSequence (applyTrace st0 steps).sequenceData :=
  applyTrace_inv steps st0 h

/-- Witness for C2: one `append(65, [97])` on a fresh instance keeps the
string equal to the serialization of the model. -/
theorem c2_projection_invariant_witness :
    (applyTrace initState [BuildStep.appendStep (Symb.num 65) (some [Symb.num 97])]).sequence
      = computeSequence
          (applyTrace initState
            [BuildStep.appendStep (Symb.num 65) (some [Symb.num 97])]).sequenceData :=
  c2_projection_invariant initState _ (by decide)

/-- Counterexample for C2 as stated: calling `setSequence("X")` on a
fresh instance (a reachable state) stores the string `[88]` while the
Sequence Model stays empty, since code 88 is not a registered operation;
the derived string of the model is `[]`, not `[88]`. -/
theorem c2_projection_invariant_counterexample :
    (setSequence initState [88]).sequence
      ≠ computeSequence (setSequence initState [88]).sequenceData := by
  decide

/-- Claim C3 (corrected). During decode, a character whose code is
neither a registered operation nor present in the Value Registry is
auto-registered mapped to null and consumed as an argument; a character
whose code has a truthy registered value is consumed without modifying
the Value Registry. (For a falsy registered value the registry IS
modified — the code is re-registered to null, see the counterexample —
so the claim's second half holds only for truthy values.) -/
theorem c3_decode_value_handling (st : OpStringState) (a c f : Nat)
    (hml : st.maxSequenceLength = none)
    (ha : storeGet st.operations a = some f)
    (hc : storeGet st.operations c = none)
    (hcr : c ≤ maxCharCode) :
    (storeGet st.values c = none →
      storeGet (setSequence st [a, c]).values c = some JSVal.vNull ∧
      modelCodes (setSequence st [a, c]).sequenceData = [(a, [c])]) ∧
    (truthyOpt (storeGet st.values c) = true →
      (setSequence st [a, c]).values = st.values ∧
      modelCodes (setSequence st [a, c]).sequenceData = [(a, [c])]) := by
  have hsome : (storeGet st.operations a).isSome = true := by rw [ha]; rfl
  have hnone : ¬ (storeGet st.operations c).isSome = true := by rw [hc]; simp
  have hlim : isSequenceLengthWithinLimit st [a, c] = true := by
    simp [isSequenceLengthWithinLimit, hml]
  constructor
  · intro hv
    have hsc : scanArgs st.operations st.values [c]
        = ([c], storeSet st.values c JSVal.vNull) := by
      rw [scanArgs_cons, if_neg (by rw [hv]; simp [truthyOpt]), if_neg hnone]
      simp [autoRegister, hcr, scanArgs]
    have hloop : setSeqLoop st.operations st.values st.nextOperationId [a, c]
        = ([⟨st.nextOperationId, a, [c]⟩],
            storeSet st.values c JSVal.vNull, st.nextOperationId + 1) := by
      rw [setSeqLoop_cons, if_pos hsome, hsc, setSeqLoop_cons, if_neg hnone]
      rfl
    have hset : setSequence st [a, c] = { st with
        sequence := [a, c]
        sequenceData := [⟨st.nextOperationId, a, [c]⟩]
        values := storeSet st.values c JSVal.vNull
        nextOperationId := st.nextOperationId + 1 } := by
      simp [setSequence, hlim, hloop]
    rw [hset]
    refine ⟨?_, by simp [modelCodes]⟩
    show storeGet (storeSet st.values c JSVal.vNull) c = some JSVal.vNull
    rw [storeGet_storeSet, if_pos rfl]
  · intro hv
    have hsc : scanArgs st.operations st.values [c] = ([c], st.values) := by
      rw [scanArgs_cons, if_pos hv]
      rfl
    have hloop : setSeqLoop st.operations st.values st.nextOperationId [a, c]
        = ([⟨st.nextOperationId, a, [c]⟩], st.values, st.nextOperationId + 1) := by
      rw [setSeqLoop_cons, if_pos hsome, hsc, setSeqLoop_cons, if_neg hnone]
      rfl
    have hset : setSequence st [a, c] = { st with
        sequence := [a, c]
        sequenceData := [⟨st.nextOperationId, a, [c]⟩]
        values := st.values
        nextOperationId := st.nextOperationId + 1 } := by
      simp [setSequence, hlim, hloop]
    rw [hset]
    exact ⟨rfl, by simp [modelCodes]⟩

/-- Witness for C3: operation 65 registered; decoding `[65, 99]` with 99
completely unknown auto-registers 99 to null and consumes it; decoding
`[65, 97]` with 97 registered to the truthy value 30 consumes it without
touching the registry. -/
theorem c3_decode_value_handling_witness :
    (storeGet
        (setSequence { initState with operations := [(65, 0)] } [65, 99]).values 99
      = some JSVal.vNull ∧
      modelCodes (setSequence { initState with operations := [(65, 0)] } [65, 99]).sequenceData
        = [(65, [99])]) ∧
    ((setSequence { initState with operations := [(65, 0)], values := [(97, JSVal.vNum 30)] }
          [65, 97]).values
        = ({ initState with operations := [(65, 0)], values := [(97, JSVal.vNum 30)] } : OpStringState).values ∧
      modelCodes
          (setSequence { initState with operations := [(65, 0)], values := [(97, JSVal.vNum 30)] }
            [65, 97]).sequenceData
        = [(65, [97])]) :=
  ⟨(c3_decode_value_handling { initState with operations := [(65, 0)] } 65 99 0
      (by decide) (by decide) (by decide) (by decide)).1 (by decide),
    (c3_decode_value_handling
        { initState with operations := [(65, 0)], values := [(97, JSVal.vNum 30)] } 65 97 0
      (by decide) (by decide) (by decide) (by decide)).2 (by decide)⟩

/-- Counterexample for C3 as stated: code 97 IS registered in the Value
Registry (mapped to the falsy value 0) before decoding, yet decoding
`[65, 97]` overwrites its entry with null — the character was consumed
as an argument but the Value Registry was modified. -/
theorem c3_decode_value_handling_counterexample :
    storeGet ({ initState with operations := [(65, 0)], values := [(97, JSVal.vNum 0)] } : OpStringState).values 97
      = some (JSVal.vNum 0) ∧
    storeGet
        (setSequence { initState with operations := [(65, 0)], values := [(97, JSVal.vNum 0)] }
          [65, 97]).values 97
      = some JSVal.vNull ∧
    JSVal.vNull ≠ JSVal.vNum 0 := by
  refine ⟨by decide, by decide, by decide⟩

/-- Claim C4 (corrected). The argument scan of `setSequence` tests value
truthiness before the operation lookup: it stops at a character exactly
when that character's value-registry entry is not truthy AND its code is
a registered operation; a character whose registered value is truthy is
consumed as an argument even when its code is also a registered
operation (see the counterexample), so the scan does not stop at every
first registered-operation character. -/
theorem c4_scan_stop_condition (ops : Store Nat) (vals : Store JSVal) (c : Nat)
    (rest : List Nat) :
    ((storeGet ops c).isSome = true → truthyOpt (storeGet vals c) = false →
      scanArgs ops vals (c :: rest) = ([], vals)) ∧
    ((storeGet ops c).isSome = true → truthyOpt (storeGet vals c) = true →
      scanArgs ops vals (c :: rest)
        = (c :: (scanArgs ops vals rest).1, (scanArgs ops vals rest).2)) := by
  constructor
  · intro h1 h2
    exact scanArgs_stop ops vals c rest h1 h2
  · intro h1 h2
    rw [scanArgs_cons, if_pos h2]

/-- Witness for C4: with operation 66 registered, the scan stops at 66
when 66 has no truthy value, and consumes 66 as an argument when 66 is
also registered as the truthy value 1. -/
theorem c4_scan_stop_condition_witness :
    scanArgs [(66, 1)] [] (66 :: [67]) = ([], []) ∧
    scanArgs [(66, 1)] [(66, JSVal.vNum 1)] (66 :: [67])
      = (66 :: (scanArgs [(66, 1)] [(66, JSVal.vNum 1)] [67]).1,
          (scanArgs [(66, 1)] [(66, JSVal.vNum 1)] [67]).2) :=
  ⟨(c4_scan_stop_condition [(66, 1)] [] 66 [67]).1 (by decide) (by decide),
    (c4_scan_stop_condition [(66, 1)] [(66, JSVal.vNum 1)] 66 [67]).2 (by decide) (by decide)⟩

/-- Counterexample for C4 as stated: 66 is a registered operation, yet
decoding `[65, 66]` puts 66 into the argument list of the record started
by 65 (because 66 also has the truthy registered value 1) instead of
stopping the scan there; a second record for 66 is still created by the
outer loop. -/
theorem c4_scan_stop_condition_counterexample :
    (storeGet ({ initState with operations := [(65, 0), (66, 1)], values := [(66, JSVal.vNum 1)] } : OpStringState).operations 66).isSome = true ∧
    modelCodes
        (setSequence
          { initState with operations := [(65, 0), (66, 1)], values := [(66, JSVal.vNum 1)] }
          [65, 66]).sequenceData
      = [(65, [66]), (66, [])] := by
  refine ⟨by decide, by decide⟩

/-- Claim C5 (corrected). The Executor's argument resolution uses a
presence check (`value !== undefined`), not a truthiness gate: a code
registered with a falsy-but-defined value (such as 0) resolves to that
registered value, while an unmapped code that is not an operation
resolves to the undefined placeholder — the two are distinguishable
(see the counterexample for the claimed truthiness behavior). -/
theorem c5_executor_presence_resolution (ops : Store Nat) (vals : Store JSVal)
    (c : Nat) (v : JSVal) (rest : List Nat) :
    (storeGet vals c = some v →
      execScanArgs ops vals (c :: rest) = v :: execScanArgs ops vals rest) ∧
    (storeGet vals c = none → storeGet ops c = none →
      execScanArgs ops vals (c :: rest)
        = JSVal.vUndefined :: execScanArgs ops vals rest) := by
  constructor
  · intro h
    rw [execScanArgs_cons, h]
  · intro h1 h2
    rw [execScanArgs_cons, h1]
    simp [h2]

/-- Witness for C5: the falsy registered value 0 at code 97 is pushed
as-is; the unmapped non-operation code 98 is pushed as undefined. -/
theorem c5_executor_presence_resolution_witness :
    execScanArgs [(65, 0)] [(97, JSVal.vNum 0)] (97 :: [])
      = JSVal.vNum 0 :: execScanArgs [(65, 0)] [(97, JSVal.vNum 0)] [] ∧
    execScanArgs [(65, 0)] [(97, JSVal.vNum 0)] (98 :: [])
      = JSVal.vUndefined :: execScanArgs [(65, 0)] [(97, JSVal.vNum 0)] [] :=
  ⟨(c5_executor_presence_resolution [(65, 0)] [(97, JSVal.vNum 0)] 97 (JSVal.vNum 0) []).1
      (by decide),
    (c5_executor_presence_resolution [(65, 0)] [(97, JSVal.vNum 0)] 98 (JSVal.vNum 0) []).2
      (by decide) (by decide)⟩

/-- Counterexample for C5 as stated: with operation 65 and the falsy
value 0 registered at 97, executing `[65, 97]` invokes the callback with
the registered value 0, whereas executing `[65, 98]` with the unmapped
code 98 invokes it with the undefined placeholder; the claimed
indistinguishability fails. -/
theorem c5_executor_presence_resolution_counterexample :
    execute { initState with operations := [(65, 0)], values := [(97, JSVal.vNum 0)] }
        (some [65, 97]) = [(65, [JSVal.vNum 0])] ∧
    execute { initState with operations := [(65, 0)], values := [(97, JSVal.vNum 0)] }
        (some [65, 98]) = [(65, [JSVal.vUndefined])] ∧
    JSVal.vNum 0 ≠ JSVal.vUndefined := by
  refine ⟨by decide, by decide, by decide⟩

/-- Claim C6 (confirmed). With `maxSequenceLength` configured and a
longer sequence given: in Lenient mode `setSequence` still sets the
sequence and parses it exactly as it would with no limit configured, and
`execute` of that sequence produces the same invocations as with no
limit (all operations run); in Strict mode `setSequence` leaves the
instance unmodified and `execute` invokes no callbacks. -/
theorem c6_length_limit_modes (st : OpStringState) (s : List Nat) (m : Nat)
    (hm : st.maxSequenceLength = some m) (hlen : m < s.length) :
    (st.strictMode = false →
      (setSequence st s).sequence = s ∧
      (setSequence st s).sequenceData
        = (setSequence { st with maxSequenceLength := none } s).sequenceData ∧
      execute st (some s) = execute { st with maxSequenceLength := none } (some s)) ∧
    (st.strictMode = true →
      setSequence st s = st ∧ execute st (some s) = []) := by
  have hlim : isSequenceLengthWithinLimit st s = false := by
    simp [isSequenceLengthWithinLimit, hm]
    omega
  have hlim2 : isSequenceLengthWithinLimit { st with maxSequenceLength := none } s = true := rfl
  have hse : s.isEmpty = false := by
    cases s with
    | nil => simp only [List.length_nil] at hlen; omega
    | cons a l => rfl
  constructor
  · intro hstrict
    refine ⟨?_, ?_, ?_⟩
    · simp [setSequence, hlim, hstrict]
    · simp [setSequence, hlim, hlim2, hstrict]
    · simp [execute, executeProvided, validateExecuteSeq, hse, hlim, hlim2, hstrict]
      split <;> rfl
  · intro hstrict
    refine ⟨?_, ?_⟩
    · simp [setSequence, hlim, hstrict]
    · simp [execute, executeProvided, validateExecuteSeq, hse, hlim, hstrict]

/-- Witness for C6: with `maxSequenceLength = 1` and the 2-character
sequence `[65, 66]`, the lenient instance still sets the sequence, and
the strict instance keeps its state unchanged and executes nothing. -/
theorem c6_length_limit_modes_witness :
    (setSequence { initState with operations := [(65, 0)], maxSequenceLength := some 1 }
        [65, 66]).sequence = [65, 66] ∧
    setSequence
        { initState with operations := [(65, 0)], maxSequenceLength := some 1, strictMode := true }
        [65, 66]
      = { initState with operations := [(65, 0)], maxSequenceLength := some 1, strictMode := true } ∧
    execute
        { initState with operations := [(65, 0)], maxSequenceLength := some 1, strictMode := true }
        (some [65, 66]) = [] :=
  ⟨((c6_length_limit_modes
        { initState with operations := [(65, 0)], maxSequenceLength := some 1 }
        [65, 66] 1 (by decide) (by decide)).1 (by decide)).1,
    ((c6_length_limit_modes
        { initState with operations := [(65, 0)], maxSequenceLength := some 1, strictMode := true }
        [65, 66] 1 (by decide) (by decide)).2 (by decide)).1,
    ((c6_length_limit_modes
        { initState with operations := [(65, 0)], maxSequenceLength := some 1, strictMode := true }
        [65, 66] 1 (by decide) (by decide)).2 (by decide)).2⟩

/-- Claim C7 (corrected). The constructor never propagates an exception:
every validation failure is caught and reported, and the instance is
left with defaults. However, validation runs in full before any config
field is applied and aborts at the first malformed field, so a single
malformed field makes ALL fields degrade to defaults — well-formed
fields of the same config do not take effect (see the counterexample). -/
theorem c7_constructor_degrades_entirely (c : Config) (e : ErrKind)
    (h : validateConstructorCfg c = Except.error e) :
    construct (some c) = initState := by
  simp [construct, h]

/-- A config with a malformed `maxSequenceLength` next to the
well-formed field `strictMode: true`. -/
def cfgBadMax : Config :=
  { sequence := .absent
    operations := .absent
    values := .absent
    labels := .absent
    maxSequenceLength := .bad
    ignoreWarnings := .absent
    strictMode := .good true
    unknownKey := false }

/-- Witness for C7: a config whose `maxSequenceLength` is malformed
yields a default instance. -/
theorem c7_constructor_degrades_entirely_witness :
    construct (some cfgBadMax) = initState :=
  c7_constructor_degrades_entirely cfgBadMax ErrKind.typeError rfl

/-- Counterexample for C7 as stated: the config carries the well-formed
field `strictMode: true` together with a malformed `maxSequenceLength`,
yet the constructed instance has `strictMode = false` — the well-formed
field did not take effect. -/
theorem c7_constructor_degrades_entirely_counterexample :
    cfgBadMax.strictMode = CfgField.good true ∧
    (construct (some cfgBadMax)).strictMode = false :=
  ⟨rfl, rfl⟩

/-- Claim C8 (confirmed). During execution an operation code with no
registered callback contributes no invocation and does not prevent later
operations from being processed: dropping such a leading character (or,
on the data path, such a leading record) leaves the interpretation of
the remainder unchanged, and the codes invoked over any string are
exactly its characters with registered callbacks, in order. -/
theorem c8_unknown_operation_skipped (st : OpStringState) (c : Nat) (rest s : List Nat)
    (r : OpRecord) (recs : List OpRecord)
    (hc : storeGet st.operations c = none)
    (hr : storeGet st.operations r.operation = none) :
    execLoop st.operations st.values (c :: rest) = execLoop st.operations st.values rest ∧
    (execLoop st.operations st.values s).map Prod.fst
      = s.filter (fun d => (storeGet st.operations d).isSome) ∧
    execFromData st.operations st.values (r :: recs)
      = execFromData st.operations st.values recs := by
  refine ⟨?_, exec_invoked_codes _ _ s, ?_⟩
  · simp [execLoop, hc]
  · simp [execFromData, hr]

/-- Witness for C8: the unregistered code 88 in front of `[65, 97]`
contributes nothing, the invoked codes of `[88, 65, 88, 65]` are
`[65, 65]`, and an unregistered record is skipped on the data path. -/
theorem c8_unknown_operation_skipped_witness :
    execLoop [(65, 0)] [(97, JSVal.vNum 30)] (88 :: [65, 97])
      = execLoop [(65, 0)] [(97, JSVal.vNum 30)] [65, 97] ∧
    (execLoop [(65, 0)] [(97, JSVal.vNum 30)] [88, 65, 88, 65]).map Prod.fst
      = [88, 65, 88, 65].filter (fun d => (storeGet [(65, 0)] d).isSome) ∧
    execFromData [(65, 0)] [(97, JSVal.vNum 30)] (⟨1, 88, [97]⟩ :: [⟨2, 65, [97]⟩])
      = execFromData [(65, 0)] [(97, JSVal.vNum 30)] [⟨2, 65, [97]⟩] :=
  c8_unknown_operation_skipped
    { initState with operations := [(65, 0)], values := [(97, JSVal.vNum 30)] }
    88 [65, 97] [88, 65, 88, 65] ⟨1, 88, [97]⟩ [⟨2, 65, [97]⟩] (by decide) (by decide)

/-- Claim C9 (confirmed). A value matching the digits regex is
classified as an Integer symbol even when supplied as a string of
digits, so it can never be a String-typed symbol; registering a value
with the digit-string symbol stores it under the denoted number (for
`"5"`, code 5), not under the character code of the digit character,
whose registry entry is untouched. -/
theorem c9_digit_symbols_are_integer_typed (st : OpStringState) (v : JSVal) (s : List Nat)
    (c : Nat) (hs : isDigits s = true) (hc1 : 48 ≤ c) (hc2 : c ≤ 57)
    (hv : v ≠ JSVal.vUndefined) :
    getSymbolType (Symb.str s) = symbolTypeInteger ∧
    getSymbolType (Symb.str s) ≠ symbolTypeString ∧
    (registerValue st (Symb.str [c]) v).values = storeSet st.values (c - 48) v ∧
    storeGet (registerValue st (Symb.str [c]) v).values c = storeGet st.values c := by
  have hdig : isDigits [c] = true := by
    simp [isDigits, isDigitCode]
    omega
  have htype : getSymbolType (Symb.str [c]) = symbolTypeInteger := by
    simp [getSymbolType, hdig]
  have hden : denoteDigits [c] = c - 48 := by
    simp [denoteDigits]
  have hvalid : validateRegisterValue (Symb.str [c]) v = Except.ok () := by
    simp only [validateRegisterValue, validateSymbol, htype, symbolTypeInteger,
      symbolTypeInvalid, symbolTypeString, symbNum, hden, maxCharCode]
    have h1 : ¬ (2 : Nat) = 0 := by omega
    have h2 : ¬ (2 : Nat) = 1 := by omega
    have h3 : ¬ c - 48 > 65535 := by omega
    simp [h1, h2, h3, hv]
    rfl
  have hreg : (registerValue st (Symb.str [c]) v).values = storeSet st.values (c - 48) v := by
    have h2 : ¬ getSymbolType (Symb.str [c]) = symbolTypeString := by
      rw [htype]
      simp [symbolTypeInteger, symbolTypeString]
    simp only [registerValue, hvalid]
    rw [if_neg h2, if_pos htype]
    simp [symbNum, hden]
  refine ⟨by simp [getSymbolType, hs], ?_, hreg, ?_⟩
  · simp [getSymbolType, hs, symbolTypeInteger, symbolTypeString]
  · rw [hreg, storeGet_storeSet, if_neg (by omega)]

/-- Witness for C9: registering value 7 with the digit-character symbol
`"5"` (code unit 53) stores it under code 5 and leaves code 53 alone. -/
theorem c9_digit_symbols_are_integer_typed_witness :
    getSymbolType (Symb.str [53]) = symbolTypeInteger ∧
    getSymbolType (Symb.str [53]) ≠ symbolTypeString ∧
    (registerValue initState (Symb.str [53]) (JSVal.vNum 7)).values
      = storeSet initState.values 5 (JSVal.vNum 7) ∧
    storeGet (registerValue initState (Symb.str [53]) (JSVal.vNum 7)).values 53
      = storeGet initState.values 53 :=
  c9_digit_symbols_are_integer_typed initState (JSVal.vNum 7) [53] 53
    (by decide) (by decide) (by decide) (by decide)

/-- Claim C10 (confirmed). Executing a caller-supplied string leaves the
entire instance state — sequence string, Sequence Model and all three
registries — unchanged (the source path performs no field writes, which
the embedding makes definitional), and, unlike decode, an argument code
that matches neither a registered value nor a registered operation
resolves to the undefined placeholder instead of being auto-registered. -/
theorem c10_execute_provided_frame (st : OpStringState) (s : List Nat) (c : Nat)
    (rest : List Nat) (hv : storeGet st.values c = none)
    (hop : storeGet st.operations c = none) :
    (executeProvided st s).1 = st ∧
    execScanArgs st.operations st.values (c :: rest)
      = JSVal.vUndefined :: execScanArgs st.operations st.values rest := by
  refine ⟨rfl, ?_⟩
  rw [execScanArgs_cons, hv]
  simp [hop]

/-- Witness for C10: executing `[65, 98]` on an instance with operation
65 leaves the state unchanged, and the unknown code 98 resolves to the
undefined placeholder. -/
theorem c10_execute_provided_frame_witness :
    (executeProvided { initState with operations := [(65, 0)], values := [(97, JSVal.vNum 30)] }
        [65, 98]).1
      = { initState with operations := [(65, 0)], values := [(97, JSVal.vNum 30)] } ∧
    execScanArgs [(65, 0)] [(97, JSVal.vNum 30)] (98 :: [])
      = JSVal.vUndefined :: execScanArgs [(65, 0)] [(97, JSVal.vNum 30)] [] :=
  c10_execute_provided_frame
    { initState with operations := [(65, 0)], values := [(97, JSVal.vNum 30)] }
    [65, 98] 98 [] (by decide) (by decide)

end OpStr
